import Mathlib

/-!
Verification development for the SQLite storage layer of the tanderwindex
repository (`sqlite-storage.ts`).  The TypeScript source is shallowly
embedded: the JSON column codec (`JsonUtils`), the timestamp policy, the
filter builders of `getTenders` / `getMarketplaceListings` / `getCrews`,
and the row-level semantics of the CRUD operations are translated into
executable Lean definitions.  The database is modelled as in-memory lists
of rows; SQL `UPDATE ... WHERE id = ?` becomes a map over the rows,
`DELETE` a filter, drizzle's `.returning()` a `find?` on the updated
rows, and the SQLite `LIKE '%x%'` predicate is modelled as substring
containment (collation-specific ASCII case folding of SQLite's LIKE is
outside the model).  `JSON.parse` is modelled by an executable JSON
parser over `List Char`; numeric JSON literals are kept as their lexeme
(the claims under study never inspect numeric values, only success or
failure of parsing and string-array contents).  JavaScript strings are
modelled as lists of unicode scalar values (`List Char`); a `\uXXXX`
escape denoting an unpaired UTF-16 surrogate, unrepresentable as a
scalar, is mapped to NUL by `Char.ofNat`.
-/

set_option maxHeartbeats 1000000

/-- Model of a JavaScript JSON value as produced by `JSON.parse`.
Numbers are kept as their source lexeme (see the file header). -/
inductive Json where
  | nullV : Json
  | boolV : Bool → Json
  | numV : String → Json
  | strV : String → Json
  | arrV : List Json → Json
  | objV : List (String × Json) → Json

/-- JSON insignificant whitespace (RFC 8259: space, tab, newline, carriage return). -/
def isJsonWs (c : Char) : Bool :=
  c = ' ' || c = '\t' || c = '\n' || c = '\r'

/-- Skip leading JSON whitespace. -/
def skipWs (l : List Char) : List Char :=
  l.dropWhile isJsonWs

/-- Value of one hexadecimal digit, as accepted in a JSON `\uXXXX` escape. -/
def hexVal (c : Char) : Option Nat :=
  if '0' ≤ c ∧ c ≤ '9' then some (c.toNat - 48)
  else if 'a' ≤ c ∧ c ≤ 'f' then some (c.toNat - 87)
  else if 'A' ≤ c ∧ c ≤ 'F' then some (c.toNat - 55)
  else none

/-- Parse the body of a JSON string after the opening quote: returns the
decoded characters and the input remaining after the closing quote. -/
def parseStrChars : List Char → Option (List Char × List Char)
  | [] => none
  | c :: rest =>
    if c = '"' then some ([], rest)
    else if c = '\\' then
      match rest with
      | [] => none
      | e :: r =>
        if e = '"' then (parseStrChars r).map (fun p => ('"' :: p.1, p.2))
        else if e = '\\' then (parseStrChars r).map (fun p => ('\\' :: p.1, p.2))
        else if e = '/' then (parseStrChars r).map (fun p => ('/' :: p.1, p.2))
        else if e = 'b' then (parseStrChars r).map (fun p => (Char.ofNat 8 :: p.1, p.2))
        else if e = 'f' then (parseStrChars r).map (fun p => (Char.ofNat 12 :: p.1, p.2))
        else if e = 'n' then (parseStrChars r).map (fun p => ('\n' :: p.1, p.2))
        else if e = 'r' then (parseStrChars r).map (fun p => ('\r' :: p.1, p.2))
        else if e = 't' then (parseStrChars r).map (fun p => ('\t' :: p.1, p.2))
        else if e = 'u' then
          match r with
          | a :: b :: c2 :: d :: r2 =>
            match hexVal a, hexVal b, hexVal c2, hexVal d with
            | some ha, some hb, some hc, some hd =>
              (parseStrChars r2).map
                (fun p => (Char.ofNat (((ha * 16 + hb) * 16 + hc) * 16 + hd) :: p.1, p.2))
            | _, _, _, _ => none
          | _ => none
        else none
    else if c.toNat < 32 then none
    else (parseStrChars rest).map (fun p => (c :: p.1, p.2))

/-- Longest digit run at the head of the input, and the rest. -/
def parseDigits (l : List Char) : List Char × List Char :=
  (l.takeWhile Char.isDigit, l.dropWhile Char.isDigit)

/-- Integer part of a JSON number: `0` or a nonzero digit followed by digits. -/
def parseIntPart : List Char → Option (List Char × List Char)
  | [] => none
  | c :: r =>
    if c = '0' then some (['0'], r)
    else if c.isDigit then
      let p := parseDigits r
      some (c :: p.1, p.2)
    else none

/-- Optional fraction part of a JSON number. -/
def parseFracPart (l : List Char) : Option (List Char × List Char) :=
  match l with
  | '.' :: r =>
    let p := parseDigits r
    if p.1.isEmpty then none else some ('.' :: p.1, p.2)
  | _ => some ([], l)

/-- Optional exponent part of a JSON number. -/
def parseExpPart (l : List Char) : Option (List Char × List Char) :=
  match l with
  | [] => some ([], l)
  | c :: r =>
    if c = 'e' ∨ c = 'E' then
      let sp : List Char × List Char :=
        match r with
        | s :: r2 => if s = '+' ∨ s = '-' then ([s], r2) else ([], s :: r2)
        | [] => ([], [])
      let p := parseDigits sp.2
      if p.1.isEmpty then none else some (c :: (sp.1 ++ p.1), p.2)
    else some ([], l)

/-- Parse a JSON number, returning its lexeme and the remaining input. -/
def parseNumber (l : List Char) : Option (List Char × List Char) := do
  let np : List Char × List Char :=
    match l with
    | '-' :: r => (['-'], r)
    | _ => ([], l)
  let ip ← parseIntPart np.2
  let fp ← parseFracPart ip.2
  let ep ← parseExpPart fp.2
  some (np.1 ++ ip.1 ++ fp.1 ++ ep.1, ep.2)

mutual

/-- Fuel-indexed parser for one JSON value (model of `JSON.parse`'s
recursive descent); returns the value and the remaining input. -/
def parseVal (fuel : Nat) (l : List Char) : Option (Json × List Char) :=
  match fuel with
  | 0 => none
  | f + 1 =>
    match skipWs l with
    | [] => none
    | c :: r =>
      if c = 'n' then
        match r with
        | 'u' :: 'l' :: 'l' :: r2 => some (.nullV, r2)
        | _ => none
      else if c = 't' then
        match r with
        | 'r' :: 'u' :: 'e' :: r2 => some (.boolV true, r2)
        | _ => none
      else if c = 'f' then
        match r with
        | 'a' :: 'l' :: 's' :: 'e' :: r2 => some (.boolV false, r2)
        | _ => none
      else if c = '"' then
        (parseStrChars r).map (fun p => (.strV (String.mk p.1), p.2))
      else if c = '[' then
        match skipWs r with
        | ']' :: r2 => some (.arrV [], r2)
        | _ => (parseElems f r).map (fun p => (.arrV p.1, p.2))
      else if c = '{' then
        match skipWs r with
        | '}' :: r2 => some (.objV [], r2)
        | _ => (parseMembers f r).map (fun p => (.objV p.1, p.2))
      else
        (parseNumber (c :: r)).map (fun p => (.numV (String.mk p.1), p.2))

/-- Fuel-indexed parser for a nonempty comma-separated list of array
elements followed by `]`. -/
def parseElems (fuel : Nat) (l : List Char) : Option (List Json × List Char) :=
  match fuel with
  | 0 => none
  | f + 1 => do
    let (v, r) ← parseVal f l
    match skipWs r with
    | ',' :: r2 => do
      let (vs, r3) ← parseElems f r2
      some (v :: vs, r3)
    | ']' :: r2 => some ([v], r2)
    | _ => none

/-- Fuel-indexed parser for a nonempty comma-separated list of object
members followed by `}`. -/
def parseMembers (fuel : Nat) (l : List Char) : Option (List (String × Json) × List Char) :=
  match fuel with
  | 0 => none
  | f + 1 =>
    match skipWs l with
    | '"' :: r => do
      let (k, r1) ← parseStrChars r
      match skipWs r1 with
      | ':' :: r2 => do
        let (v, r3) ← parseVal f r2
        match skipWs r3 with
        | ',' :: r4 => do
          let (ms, r5) ← parseMembers f r4
          some ((String.mk k, v) :: ms, r5)
        | '}' :: r4 => some ([(String.mk k, v)], r4)
        | _ => none
      | _ => none
    | _ => none

end

/-- Model of `JSON.parse`: parse one value, require only whitespace after
it; `none` models a thrown `SyntaxError`.  The fuel `length + 1` is
sufficient for every input, since each fuel decrement consumes at least
one input character. -/
def jsonParse (s : String) : Option Json :=
  match parseVal (s.data.length + 1) s.data with
  | some (v, r) => if skipWs r = [] then some v else none
  | none => none

/-- Lowercase hexadecimal digit, as emitted by `JSON.stringify` in
`\uXXXX` escapes. -/
def hexDigit (n : Nat) : Char :=
  if n < 10 then Char.ofNat (48 + n) else Char.ofNat (87 + n)

/-- Escaping of one character inside a JSON string literal, following
`JSON.stringify`: quote and backslash escaped, the five short control
escapes, `\u00XX` for the remaining control characters, everything else
verbatim. -/
def escChar (c : Char) : List Char :=
  if c = '"' then ['\\', '"']
  else if c = '\\' then ['\\', '\\']
  else if c.toNat = 8 then ['\\', 'b']
  else if c.toNat = 9 then ['\\', 't']
  else if c.toNat = 10 then ['\\', 'n']
  else if c.toNat = 12 then ['\\', 'f']
  else if c.toNat = 13 then ['\\', 'r']
  else if c.toNat < 32 then
    ['\\', 'u', '0', '0', hexDigit (c.toNat / 16), hexDigit (c.toNat % 16)]
  else [c]

/-- Serialization of one string as a JSON string literal. -/
def printStr (s : String) : List Char :=
  '"' :: (s.data.map escChar).flatten ++ ['"']

/-- Serialization of a list of strings as a JSON array, exactly as
`JSON.stringify` renders a string array: no whitespace, elements
comma-separated. -/
def printStrList (L : List String) : List Char :=
  match L with
  | [] => ['[', ']']
  | s :: L' =>
    '[' :: (printStr s ++ (L'.map (fun x => ',' :: printStr x)).flatten ++ [']'])

/-- Model of `JsonUtils.stringify` applied to a string-list column:
`JSON.stringify(data || [])`.  An absent value becomes `[]`; any array
(including the empty array, which is truthy in JavaScript) is serialized
as itself. -/
def JsonUtils.stringify (data : Option (List String)) : String :=
  String.mk (printStrList (data.getD []))

/-- Substring containment on strings (JavaScript `String.includes`,
and the model of SQLite `LIKE '%needle%'`). -/
def containsSub (hay needle : String) : Bool :=
  decide (needle.data <:+: hay.data)

/-- Model of `JsonUtils.isUrl`: the string contains `http` or `www`. -/
def isUrl (s : String) : Bool :=
  containsSub s "http" || containsSub s "www"

/-- Whitespace stripped by JavaScript `String.prototype.trim` (restricted
to the code points that can occur around the JSON/URL payloads modelled
here). -/
def isTrimWs (c : Char) : Bool :=
  c = ' ' || c = '\t' || c = '\n' || c = '\r' || c = Char.ofNat 11 || c = Char.ofNat 12

/-- Drop leading and trailing whitespace from a character list. -/
def trimChars (l : List Char) : List Char :=
  ((l.dropWhile isTrimWs).reverse.dropWhile isTrimWs).reverse

/-- Model of JavaScript `String.prototype.trim`. -/
def trimStr (s : String) : String :=
  String.mk (trimChars s.data)

/-- Model of `JsonUtils.parseArray` (sqlite-storage.ts lines 29–59).
The stored column value is `string | null`; `none` models SQL NULL.  The
returned `Json` is whatever `JSON.parse` produced (the TypeScript source
casts it to `string[]` without checking).  A thrown parse error is
caught: the original (untrimmed) input is wrapped as a single-element
array when it looks like a URL, otherwise the empty array is returned.
The function is total: no error escapes it. -/
def JsonUtils.parseArray (json : Option String) : Json :=
  match json with
  | none => .arrV []
  | some s =>
    if s.data = [] then .arrV []
    else
      let t := trimStr s
      if t.data.head? = some '[' then
        match jsonParse t with
        | some v => v
        | none => if isUrl s then .arrV [.strV s] else .arrV []
      else if isUrl t then .arrV [.strV t]
      else
        match jsonParse t with
        | some v => v
        | none => if isUrl s then .arrV [.strV s] else .arrV []

theorem stringMk_data (s : String) : String.mk s.data = s := by
  cases s; rfl

theorem hexVal_hexDigit : ∀ n < 16, hexVal (hexDigit n) = some n := by decide

theorem charEq_of_toNat {c : Char} {n : Nat} (h : c.toNat = n) : Char.ofNat n = c := by
  subst h; exact Char.ofNat_toNat c

theorem parseStrChars_escape (s : List Char) (rest : List Char) :
    parseStrChars ((s.map escChar).flatten ++ '"' :: rest) = some (s, rest) := by
  induction s with
  | nil =>
    rw [parseStrChars.eq_def]; simp +decide
  | cons c cs ih =>
    simp only [List.map_cons, List.flatten_cons, List.append_assoc]
    by_cases h1 : c = '"'
    · subst h1
      simp only [escChar, if_pos rfl, List.cons_append, List.nil_append]
      rw [parseStrChars.eq_def]; simp +decide [ih]
    · by_cases h2 : c = '\\'
      · subst h2
        rw [show escChar '\\' = ['\\', '\\'] from by simp +decide [escChar]]
        rw [parseStrChars.eq_def]; simp +decide [ih]
      · by_cases h3 : c.toNat = 8
        · rw [show escChar c = ['\\', 'b'] from by simp [escChar, h1, h2, h3]]
          rw [parseStrChars.eq_def]; simp +decide [ih]
          exact charEq_of_toNat h3
        · by_cases h4 : c.toNat = 9
          · rw [show escChar c = ['\\', 't'] from by simp [escChar, h1, h2, h3, h4]]
            rw [parseStrChars.eq_def]; simp +decide [ih]
            exact charEq_of_toNat h4
          · by_cases h5 : c.toNat = 10
            · rw [show escChar c = ['\\', 'n'] from by simp [escChar, h1, h2, h3, h4, h5]]
              rw [parseStrChars.eq_def]; simp +decide [ih]
              exact charEq_of_toNat h5
            · by_cases h6 : c.toNat = 12
              · rw [show escChar c = ['\\', 'f'] from by
                  simp [escChar, h1, h2, h3, h4, h5, h6]]
                rw [parseStrChars.eq_def]; simp +decide [ih]
                exact charEq_of_toNat h6
              · by_cases h7 : c.toNat = 13
                · rw [show escChar c = ['\\', 'r'] from by
                    simp [escChar, h1, h2, h3, h4, h5, h6, h7]]
                  rw [parseStrChars.eq_def]; simp +decide [ih]
                  exact charEq_of_toNat h7
                · by_cases h8 : c.toNat < 32
                  · have hdiv : c.toNat / 16 < 16 := Nat.div_lt_of_lt_mul (by omega)
                    have hmod : c.toNat % 16 < 16 := Nat.mod_lt _ (by omega)
                    rw [show escChar c
                        = ['\\', 'u', '0', '0', hexDigit (c.toNat / 16), hexDigit (c.toNat % 16)]
                      from by simp [escChar, h1, h2, h3, h4, h5, h6, h7, h8]]
                    rw [parseStrChars.eq_def]
                    simp +decide [ih, hexVal_hexDigit _ hdiv, hexVal_hexDigit _ hmod,
                      show hexVal '0' = some 0 from by decide]
                    have hval : c.toNat / 16 * 16 + c.toNat % 16 = c.toNat := by omega
                    rw [hval]
                    exact Char.ofNat_toNat c
                  · rw [show escChar c = [c] from by
                      simp [escChar, h1, h2, h3, h4, h5, h6, h7, h8]]
                    rw [parseStrChars.eq_def]; simp +decide [ih, h1, h2, h8]

theorem skipWs_cons {c : Char} (h : isJsonWs c = false) (l : List Char) :
    skipWs (c :: l) = c :: l := by
  simp [skipWs, List.dropWhile_cons, h]

theorem parseVal_printStr (g : Nat) (s : String) (rest : List Char) :
    parseVal (g + 1) (printStr s ++ rest) = some (.strV s, rest) := by
  rw [parseVal.eq_def]
  simp only [printStr, List.cons_append, List.append_assoc, List.singleton_append]
  rw [skipWs_cons (by decide)]
  simp +decide [parseStrChars_escape, stringMk_data]

theorem parseElems_print (L : List String) :
    ∀ (f : Nat) (s : String) (rest : List Char), L.length + 2 ≤ f →
    parseElems f (printStr s ++ ((L.map (fun x => ',' :: printStr x)).flatten ++ ']' :: rest))
      = some ((s :: L).map Json.strV, rest) := by
  induction L with
  | nil =>
    intro f s rest hf
    obtain ⟨g, rfl⟩ : ∃ g', f = g' + 1 := ⟨f - 1, by omega⟩
    obtain ⟨g2, rfl⟩ : ∃ g', g = g' + 1 := ⟨g - 1, by omega⟩
    rw [parseElems.eq_def]
    simp only [List.map_nil, List.flatten_nil, List.nil_append]
    rw [parseVal_printStr]
    simp only [Option.bind_eq_bind, Option.some_bind]
    rw [skipWs_cons (by decide)]
    simp
  | cons x L ih =>
    intro f s rest hf
    obtain ⟨g, rfl⟩ : ∃ g', f = g' + 1 := ⟨f - 1, by omega⟩
    simp only [List.length_cons] at hf
    rw [parseElems.eq_def]
    simp only [List.map_cons, List.flatten_cons, List.cons_append, List.append_assoc]
    obtain ⟨g2, rfl⟩ : ∃ g', g = g' + 1 := ⟨g - 1, by omega⟩
    rw [parseVal_printStr]
    simp only [Option.bind_eq_bind, Option.some_bind]
    rw [skipWs_cons (by decide)]
    simp [ih (g2 + 1) x rest (by omega)]

theorem parseVal_printList (L : List String) (f : Nat) (rest : List Char)
    (hf : L.length + 2 ≤ f) :
    parseVal f (printStrList L ++ rest) = some (.arrV (L.map .strV), rest) := by
  obtain ⟨g, rfl⟩ : ∃ g', f = g' + 1 := ⟨f - 1, by omega⟩
  cases L with
  | nil =>
    rw [parseVal.eq_def]
    simp only [printStrList, List.cons_append, List.nil_append]
    rw [skipWs_cons (by decide)]
    simp +decide [skipWs_cons (by decide : isJsonWs ']' = false)]
  | cons s L' =>
    rw [parseVal.eq_def]
    simp only [printStrList, List.cons_append, List.append_assoc]
    rw [skipWs_cons (by decide)]
    have hs : skipWs (printStr s ++
        ((L'.map (fun x => ',' :: printStr x)).flatten ++ (']' :: rest)))
        = '"' :: ((s.data.map escChar).flatten ++ ['"'] ++
          ((L'.map (fun x => ',' :: printStr x)).flatten ++ (']' :: rest))) := by
      simp only [printStr, List.cons_append, List.append_assoc]
      rw [skipWs_cons (by decide)]
    simp only [List.length_cons] at hf
    simp +decide [hs, List.singleton_append, List.append_assoc]
    rw [parseElems_print L' g s rest (by omega)]
    simp

theorem flatten_len_ge (L : List String) :
    L.length ≤ ((L.map (fun x => ',' :: printStr x)).flatten).length := by
  induction L with
  | nil => simp
  | cons x L ih =>
    simp only [List.map_cons, List.flatten_cons, List.length_append, List.length_cons]
    omega

theorem printStrList_len (L : List String) : L.length + 2 ≤ (printStrList L).length := by
  cases L with
  | nil => simp [printStrList]
  | cons s L' =>
    have h1 := flatten_len_ge L'
    have h2 : 2 ≤ (printStr s).length := by simp [printStr]
    simp only [printStrList, List.length_cons, List.length_append, List.length_singleton]
    omega

theorem jsonParse_print (L : List String) :
    jsonParse (String.mk (printStrList L)) = some (.arrV (L.map .strV)) := by
  unfold jsonParse
  have hdata : (String.mk (printStrList L)).data = printStrList L := rfl
  rw [hdata]
  have hlen := printStrList_len L
  have hp := parseVal_printList L ((printStrList L).length + 1) [] (by omega)
  rw [List.append_nil] at hp
  rw [hp]
  simp [skipWs]

theorem trimChars_ends {a b : Char} (l : List Char)
    (ha : isTrimWs a = false) (hb : isTrimWs b = false) :
    trimChars (a :: (l ++ [b])) = a :: (l ++ [b]) := by
  simp [trimChars, List.dropWhile_cons, ha, hb, List.reverse_append]

theorem printStrList_shape (L : List String) :
    ∃ mid, printStrList L = '[' :: (mid ++ [']']) := by
  cases L with
  | nil => exact ⟨[], rfl⟩
  | cons s L' =>
    exact ⟨printStr s ++ (L'.map (fun x => ',' :: printStr x)).flatten, by
      simp [printStrList, List.append_assoc]⟩

/-- C4: decoding the encoding of any ordered list of strings with the JSON
column codec returns exactly that list (as the JSON array of its elements),
including the empty list: `JsonUtils.parseArray (JsonUtils.stringify L) = L`. -/
theorem claim_C4_codec_roundtrip (L : List String) :
    JsonUtils.parseArray (some (JsonUtils.stringify (some L))) = Json.arrV (L.map Json.strV) := by
  obtain ⟨mid, hm⟩ := printStrList_shape L
  have hstr : JsonUtils.stringify (some L) = String.mk (printStrList L) := rfl
  rw [hstr]
  unfold JsonUtils.parseArray
  have hdata : (String.mk (printStrList L)).data = printStrList L := rfl
  have hne : ¬ (printStrList L = []) := by rw [hm]; simp
  have htrimStr : trimStr (String.mk (printStrList L)) = String.mk (printStrList L) := by
    unfold trimStr
    rw [hdata, hm, trimChars_ends mid (by decide) (by decide)]
  have hhead : (printStrList L).head? = some '[' := by rw [hm]; rfl
  simp [hne, htrimStr, hhead, jsonParse_print L]

theorem trimChars_contained (l : List Char) : trimChars l <:+: l := by
  have h1 : l.dropWhile isTrimWs <:+ l := List.dropWhile_suffix _
  have h2 : ((l.dropWhile isTrimWs).reverse.dropWhile isTrimWs).reverse
      <+: (l.dropWhile isTrimWs) := by
    rw [← List.reverse_suffix]
    simpa using List.dropWhile_suffix (l := (l.dropWhile isTrimWs).reverse) isTrimWs
  exact (h2.isInfix).trans h1.isInfix

theorem containsSub_trim {s needle : String} (h : containsSub s needle = false) :
    containsSub (trimStr s) needle = false := by
  simp only [containsSub, decide_eq_false_iff_not] at h ⊢
  intro hin
  exact h (hin.trans (trimChars_contained s.data))

/-- C5: a stored text value that is not valid JSON (after trimming) and does
not contain the substring `http` or `www` decodes to the empty list;
`JsonUtils.parseArray` is a total function, so no error is ever propagated
to the caller. -/
theorem claim_C5_malformed_parse (s : String)
    (hp : jsonParse (trimStr s) = none) (hu : isUrl s = false) :
    JsonUtils.parseArray (some s) = Json.arrV [] := by
  have hu' : containsSub s "http" = false ∧ containsSub s "www" = false := by
    simpa [isUrl] using hu
  have hut : isUrl (trimStr s) = false := by
    simp [isUrl, containsSub_trim hu'.1, containsSub_trim hu'.2]
  unfold JsonUtils.parseArray
  by_cases hd : s.data = []
  · simp [hd]
  · by_cases hh : (trimStr s).data.head? = some '['
    · simp [hd, hh, hp, hu]
    · simp [hd, hh, hp, hu, hut]

/-- Closed witness for C5 at the spec's example input `"not json"`. -/
theorem claim_C5_malformed_parse_witness :
    jsonParse (trimStr "not json") = none ∧ isUrl "not json" = false ∧
      JsonUtils.parseArray (some "not json") = Json.arrV [] :=
  ⟨rfl, by decide, claim_C5_malformed_parse "not json" rfl (by decide)⟩

/-! Database model.  One structure per table row, a `DB` holding the tables
the claims touch, and the storage operations translated from
`SQLiteStorage`.  `UPDATE … WHERE id = ?` is a map over the rows,
`DELETE` a filter, `.returning()` / re-`SELECT` a `find?`.  The current
instant is passed explicitly as `now` to the operations whose source
consults `TimestampUtils.now()`. -/

structure UserRow where
  id : Nat
  username : String
  email : String
  fullName : String
  userType : String
  location : Option String
  bio : Option String
  rating : Int
  walletBalance : Int
  createdAt : String
  updatedAt : String

structure TenderRow where
  id : Nat
  userId : Nat
  title : String
  description : String
  category : String
  location : String
  status : String
  personType : String
  requiredProfessions : Option String
  images : Option String
  budget : Int
  viewCount : Int
  createdAt : String
  updatedAt : String

structure BidRow where
  id : Nat
  tenderId : Nat
  userId : Nat
  amount : Int
  description : String
  isAccepted : Bool
  createdAt : String

structure ListingRow where
  id : Nat
  userId : Nat
  title : String
  description : String
  category : String
  subcategory : String
  listingType : String
  location : String
  price : Int
  images : Option String
  viewCount : Int
  createdAt : String
  updatedAt : String

structure ReviewRow where
  id : Nat
  authorId : Nat
  recipientId : Nat
  rating : Int
  comment : String
deriving DecidableEq

structure DeliveryOrderRow where
  id : Nat
  userId : Nat
  optionId : Nat
  status : String
  trackingCode : Option String
  address : String
  createdAt : String
  updatedAt : String

structure EstimateItemRow where
  id : Nat
  estimateId : Nat
  name : String
  quantity : Int
  price : Int

structure CrewRow where
  id : Nat
  ownerId : Nat
  name : String
  description : Option String
  location : String
  specialization : String
  experienceYears : Int
  isVerified : Bool
  isAvailable : Bool
  createdAt : String
  updatedAt : String

structure DB where
  users : List UserRow
  tenders : List TenderRow
  tenderBids : List BidRow
  marketplaceListings : List ListingRow
  reviews : List ReviewRow
  deliveryOrders : List DeliveryOrderRow
  estimateItems : List EstimateItemRow
  crews : List CrewRow

/-- A tender as returned to the caller: the stored row spread with the
`images` column replaced by its decoded value. -/
structure TenderWithImages where
  row : TenderRow
  images : Json

def decodeTender (t : TenderRow) : TenderWithImages :=
  ⟨t, JsonUtils.parseArray t.images⟩

/-- A marketplace listing as returned to the caller. -/
structure ListingWithImages where
  row : ListingRow
  images : Json

def decodeListing (l : ListingRow) : ListingWithImages :=
  ⟨l, JsonUtils.parseArray l.images⟩

/-- A tender as returned by the profession queries: `images` and
`requiredProfessions` both decoded. -/
structure TenderDecoded where
  row : TenderRow
  images : Json
  requiredProfessions : Json

/-- SQLite `col LIKE '%needle%'` on a non-null text column (collation
case folding is outside the model, see the file header). -/
def likeContains (hay needle : String) : Bool :=
  containsSub hay needle

/-- SQLite `col LIKE '%needle%'` on a nullable column: NULL yields NULL,
which is falsy in a WHERE conjunction. -/
def likeContainsOpt (hay : Option String) (needle : String) : Bool :=
  match hay with
  | some h => containsSub h needle
  | none => false

/-- JavaScript `parsed.includes(x)` for a string `x`, where `parsed` is a
`JSON.parse` result: strict equality only holds against a string element.
On a non-array the source would throw; such stored values are never
produced by `JsonUtils.stringify` on this column, and the model returns
`false` there. -/
def includesStr (j : Json) (x : String) : Bool :=
  match j with
  | .arrV vs => vs.any (fun v => match v with | .strV s₀ => s₀ == x | _ => false)
  | _ => false

/-- Named filter criteria of `getTenders` (lines 243–251); `none` is an
absent criterion. -/
structure TenderFilters where
  category : Option String := none
  location : Option String := none
  status : Option String := none
  userId : Option Nat := none
  searchTerm : Option String := none
  personType : Option String := none
  requiredProfessions : Option (List String) := none

/-- The condition list built by `getTenders` (lines 254–290).  String and
number criteria are guarded by JavaScript truthiness (`if (filters.x)`):
an empty string or the number `0` is skipped exactly like an absent
criterion; `requiredProfessions` is guarded by `?.length`. -/
def tenderConditions (f : TenderFilters) : List (TenderRow → Bool) :=
  (match f.category with
    | some c => if c ≠ "" then [fun t => t.category == c] else []
    | none => []) ++
  (match f.location with
    | some v => if v ≠ "" then [fun t => likeContains t.location v] else []
    | none => []) ++
  (match f.status with
    | some v => if v ≠ "" then [fun t => t.status == v] else []
    | none => []) ++
  (match f.userId with
    | some u => if u ≠ 0 then [fun t => t.userId == u] else []
    | none => []) ++
  (match f.searchTerm with
    | some v =>
      if v ≠ "" then [fun t => likeContains t.title v || likeContains t.description v]
      else []
    | none => []) ++
  (match f.personType with
    | some v => if v ≠ "" then [fun t => t.personType == v] else []
    | none => []) ++
  (match f.requiredProfessions with
    | some ps =>
      if ps ≠ [] then [fun t => ps.any (fun prof => likeContainsOpt t.requiredProfessions prof)]
      else []
    | none => [])

/-- Model of `SQLiteStorage.getTenders` (lines 243–298): conjunction of the
built conditions when at least one is present, then the `images` column of
each returned row is decoded. -/
def SQLiteStorage.getTenders (rows : List TenderRow) (filters : Option TenderFilters) :
    List TenderWithImages :=
  let base :=
    match filters with
    | none => rows
    | some f =>
      let conditions := tenderConditions f
      if 0 < conditions.length then rows.filter (fun t => conditions.all (fun c => c t))
      else rows
  base.map decodeTender

/-- Named filter criteria of `getMarketplaceListings` (lines 397–406). -/
structure ListingFilters where
  category : Option String := none
  subcategory : Option String := none
  listingType : Option String := none
  location : Option String := none
  userId : Option Nat := none
  minPrice : Option Int := none
  maxPrice : Option Int := none
  searchTerm : Option String := none

/-- The condition list built by `getMarketplaceListings` (lines 409–441).
The price bounds are tested against `undefined` (not truthiness), so a
supplied bound of `0` is applied; both bounds give an inclusive
`BETWEEN`. -/
def listingConditions (f : ListingFilters) : List (ListingRow → Bool) :=
  (match f.category with
    | some c => if c ≠ "" then [fun r => r.category == c] else []
    | none => []) ++
  (match f.subcategory with
    | some v => if v ≠ "" then [fun r => r.subcategory == v] else []
    | none => []) ++
  (match f.listingType with
    | some v => if v ≠ "" then [fun r => r.listingType == v] else []
    | none => []) ++
  (match f.location with
    | some v => if v ≠ "" then [fun r => likeContains r.location v] else []
    | none => []) ++
  (match f.userId with
    | some u => if u ≠ 0 then [fun r => r.userId == u] else []
    | none => []) ++
  (match f.minPrice, f.maxPrice with
    | some lo, some hi => [fun r => decide (lo ≤ r.price) && decide (r.price ≤ hi)]
    | some lo, none => [fun r => decide (lo ≤ r.price)]
    | none, some hi => [fun r => decide (r.price ≤ hi)]
    | none, none => []) ++
  (match f.searchTerm with
    | some v =>
      if v ≠ "" then [fun r => likeContains r.title v || likeContains r.description v]
      else []
    | none => [])

/-- Model of `SQLiteStorage.getMarketplaceListings` (lines 397–454). -/
def SQLiteStorage.getMarketplaceListings (rows : List ListingRow)
    (filters : Option ListingFilters) : List ListingWithImages :=
  let base :=
    match filters with
    | none => rows
    | some f =>
      let conditions := listingConditions f
      if 0 < conditions.length then rows.filter (fun r => conditions.all (fun c => c r))
      else rows
  base.map decodeListing

/-- Named filter criteria of `getCrews` (lines 911–918). -/
structure CrewFilters where
  location : Option String := none
  specialization : Option String := none
  experienceYears : Option Int := none
  isVerified : Option Bool := none
  isAvailable : Option Bool := none
  searchTerm : Option String := none

/-- The condition list built by `getCrews` (lines 921–947):
`experienceYears`, `isVerified` and `isAvailable` are tested against
`undefined`, so `0` and `false` are applied. -/
def crewConditions (f : CrewFilters) : List (CrewRow → Bool) :=
  (match f.location with
    | some v => if v ≠ "" then [fun c => likeContains c.location v] else []
    | none => []) ++
  (match f.specialization with
    | some v => if v ≠ "" then [fun c => likeContains c.specialization v] else []
    | none => []) ++
  (match f.experienceYears with
    | some v => [fun c => decide (v ≤ c.experienceYears)]
    | none => []) ++
  (match f.isVerified with
    | some v => [fun c => c.isVerified == v]
    | none => []) ++
  (match f.isAvailable with
    | some v => [fun c => c.isAvailable == v]
    | none => []) ++
  (match f.searchTerm with
    | some v =>
      if v ≠ "" then
        [fun c => likeContains c.name v || likeContainsOpt c.description v ||
          likeContains c.specialization v]
      else []
    | none => [])

/-- Model of `SQLiteStorage.getCrews` (lines 911–955); crew rows are
returned undecoded. -/
def SQLiteStorage.getCrews (rows : List CrewRow) (filters : Option CrewFilters) :
    List CrewRow :=
  match filters with
  | none => rows
  | some f =>
    let conditions := crewConditions f
    if 0 < conditions.length then rows.filter (fun c => conditions.all (fun p => p c))
    else rows

/-- Model of `SQLiteStorage.getTendersByRequiredProfession` (lines
1115–1128): fetch every tender, decode `requiredProfessions`, keep the rows
whose decoded list includes the profession as an exact element, and return
them with both list columns decoded. -/
def SQLiteStorage.getTendersByRequiredProfession (rows : List TenderRow)
    (profession : String) : List TenderDecoded :=
  let filteredTenders := rows.filter
    (fun t => includesStr (JsonUtils.parseArray t.requiredProfessions) profession)
  filteredTenders.map
    (fun t => ⟨t, JsonUtils.parseArray t.images, JsonUtils.parseArray t.requiredProfessions⟩)

/-- Partial update payload for a user (`Partial<User>` restricted to the
modelled columns).  For nullable columns the payload distinguishes
"set to this value" (`some (some v)`), "set to NULL" (`some none`) and
"absent" (`none`). -/
structure UserPatch where
  username : Option String := none
  email : Option String := none
  fullName : Option String := none
  userType : Option String := none
  location : Option (Option String) := none
  bio : Option (Option String) := none
  rating : Option Int := none
  walletBalance : Option Int := none
  updatedAt : Option String := none

def userPatchIsEmpty (p : UserPatch) : Bool :=
  p.username.isNone && p.email.isNone && p.fullName.isNone && p.userType.isNone &&
  p.location.isNone && p.bio.isNone && p.rating.isNone && p.walletBalance.isNone &&
  p.updatedAt.isNone

/-- Application of the supplied payload fields to a stored user row
(the `SET f1 = ?, …` part of `DatabaseUtils.buildUpdateQuery`). -/
def applyUserPatch (u : UserRow) (p : UserPatch) : UserRow :=
  { u with
    username := p.username.getD u.username,
    email := p.email.getD u.email,
    fullName := p.fullName.getD u.fullName,
    userType := p.userType.getD u.userType,
    location := p.location.getD u.location,
    bio := p.bio.getD u.bio,
    rating := p.rating.getD u.rating,
    walletBalance := p.walletBalance.getD u.walletBalance,
    updatedAt := p.updatedAt.getD u.updatedAt }

/-- Model of `SQLiteStorage.updateUser` (lines 176–191): the caller's
`updatedAt` is deleted from the payload, `DatabaseUtils.buildUpdateQuery`
(lines 87–93) appends `updated_at = now` to the SET clause, the statement
runs, and the row is re-read.  A payload that is empty after the deletion
yields the malformed statement `UPDATE users SET , updated_at = ? …`;
the thrown error is modelled as `none`. -/
def SQLiteStorage.updateUser (db : DB) (now : String) (id : Nat) (p : UserPatch) :
    Option (Option UserRow × DB) :=
  let updateData := { p with updatedAt := none }
  if userPatchIsEmpty updateData then none
  else
    let users' := db.users.map
      (fun u => if u.id == id then { applyUserPatch u updateData with updatedAt := now } else u)
    some (users'.find? (fun u => u.id == id), { db with users := users' })

/-- Partial update payload for a tender (`Partial<Tender>` restricted to the
modelled columns).  `images` carries the decoded list the caller supplies. -/
structure TenderPatch where
  title : Option String := none
  description : Option String := none
  category : Option String := none
  location : Option String := none
  status : Option String := none
  personType : Option String := none
  userId : Option Nat := none
  budget : Option Int := none
  images : Option (List String) := none
  requiredProfessions : Option (Option String) := none
  createdAt : Option String := none
  updatedAt : Option String := none

def tenderPatchIsEmpty (p : TenderPatch) : Bool :=
  p.title.isNone && p.description.isNone && p.category.isNone && p.location.isNone &&
  p.status.isNone && p.personType.isNone && p.userId.isNone && p.budget.isNone &&
  p.images.isNone && p.requiredProfessions.isNone && p.createdAt.isNone && p.updatedAt.isNone

/-- Application of the payload built by `updateTender`: a supplied `images`
list is serialized by `JsonUtils.stringify` first (any supplied array is
truthy, including `[]`); every other supplied field, `updatedAt` included,
is written through unchanged.  No timestamp is stamped. -/
def applyTenderPatch (t : TenderRow) (p : TenderPatch) : TenderRow :=
  { t with
    title := p.title.getD t.title,
    description := p.description.getD t.description,
    category := p.category.getD t.category,
    location := p.location.getD t.location,
    status := p.status.getD t.status,
    personType := p.personType.getD t.personType,
    userId := p.userId.getD t.userId,
    budget := p.budget.getD t.budget,
    images := (match p.images with
      | some l => some (JsonUtils.stringify (some l))
      | none => t.images),
    requiredProfessions := p.requiredProfessions.getD t.requiredProfessions,
    createdAt := p.createdAt.getD t.createdAt,
    updatedAt := p.updatedAt.getD t.updatedAt }

/-- Model of `SQLiteStorage.updateTender` (lines 326–344): serialize a
supplied `images` list, apply the payload with drizzle `.set(data)`, return
`none` inside when no row matched, else the updated row with `images`
decoded.  drizzle raises on an empty payload (`No values to set`),
modelled as the outer `none`. -/
def SQLiteStorage.updateTender (db : DB) (id : Nat) (p : TenderPatch) :
    Option (Option TenderWithImages × DB) :=
  if tenderPatchIsEmpty p then none
  else
    let tenders' := db.tenders.map (fun t => if t.id == id then applyTenderPatch t p else t)
    let db' := { db with tenders := tenders' }
    match tenders'.find? (fun t => t.id == id) with
    | none => some (none, db')
    | some t => some (some (decodeTender t), db')

/-- Model of `SQLiteStorage.updateDeliveryOrderStatus` (lines 671–678):
sets `status` and stamps `updatedAt` with the current instant; returns the
updated row, or `none` when no row has the id. -/
def SQLiteStorage.updateDeliveryOrderStatus (db : DB) (now : String) (id : Nat)
    (status : String) : Option DeliveryOrderRow × DB :=
  let orders' := db.deliveryOrders.map
    (fun o => if o.id == id then { o with status := status, updatedAt := now } else o)
  (orders'.find? (fun o => o.id == id), { db with deliveryOrders := orders' })

/-- Model of `SQLiteStorage.acceptTenderBid` (lines 378–394): look the bid
up; absent → `none` with no writes; otherwise set the parent tender's
status to `in_progress`, set the bid's `isAccepted` flag, and return the
updated bid. -/
def SQLiteStorage.acceptTenderBid (db : DB) (bidId : Nat) : Option BidRow × DB :=
  match db.tenderBids.find? (fun b => b.id == bidId) with
  | none => (none, db)
  | some bid =>
    let tenders' := db.tenders.map
      (fun t => if t.id == bid.tenderId then { t with status := "in_progress" } else t)
    let bids' := db.tenderBids.map
      (fun b => if b.id == bidId then { b with isAccepted := true } else b)
    (bids'.find? (fun b => b.id == bidId), { db with tenders := tenders', tenderBids := bids' })

/-- JavaScript `Math.round(total / count)` for integer `total` and positive
integer `count`, computed exactly: `⌊total/count + 1/2⌋ = ⌊(2·total + count) / (2·count)⌋`
(`Int.fdiv` is the flooring division).  The float arithmetic of the source
is exact on the small integer ranges a rating aggregate can take. -/
def jsRound (total : Int) (count : Nat) : Int :=
  Int.fdiv (2 * total + count) (2 * count)

/-- Model of `SQLiteStorage.updateUserRating` (lines 597–612): with no
reviews addressed to the user, return 0 without touching any row;
otherwise persist the rounded mean of the ratings and return the updated
row's rating.  When the user row is absent the source dereferences
`undefined` (a thrown TypeError), modelled as `none`. -/
def SQLiteStorage.updateUserRating (db : DB) (userId : Nat) : Option (Int × DB) :=
  let userReviews := db.reviews.filter (fun r => r.recipientId == userId)
  if userReviews.length == 0 then some (0, db)
  else
    let totalRating : Int := (userReviews.map (fun r => r.rating)).sum
    let averageRating : Int := jsRound totalRating userReviews.length
    let users' := db.users.map
      (fun u => if u.id == userId then { u with rating := averageRating } else u)
    match users'.find? (fun u => u.id == userId) with
    | none => none
    | some u => some (u.rating, { db with users := users' })

/-- Model of `SQLiteStorage.deleteTender` (lines 346–349): hard delete,
`true` unconditionally. -/
def SQLiteStorage.deleteTender (db : DB) (id : Nat) : Bool × DB :=
  (true, { db with tenders := db.tenders.filter (fun t => !(t.id == id)) })

/-- Model of `SQLiteStorage.deleteEstimateItem` (lines 770–773). -/
def SQLiteStorage.deleteEstimateItem (db : DB) (id : Nat) : Bool × DB :=
  (true, { db with estimateItems := db.estimateItems.filter (fun e => !(e.id == id)) })

/-- Model of `SQLiteStorage.deleteCrew` (lines 982–985). -/
def SQLiteStorage.deleteCrew (db : DB) (id : Nat) : Bool × DB :=
  (true, { db with crews := db.crews.filter (fun c => !(c.id == id)) })

/-! Claim theorems. -/

/-- C9: the hard-delete operations (`deleteTender`, `deleteEstimateItem`,
`deleteCrew`) return `true` for every id, including ids with no matching
row; the success boolean never signals whether a row was actually
removed. -/
theorem claim_C9_delete_returns_true (db : DB) (id : Nat) :
    (SQLiteStorage.deleteTender db id).1 = true ∧
    (SQLiteStorage.deleteEstimateItem db id).1 = true ∧
    (SQLiteStorage.deleteCrew db id).1 = true :=
  ⟨rfl, rfl, rfl⟩

/-- C10: in the truthiness-tested list filters a supplied falsy criterion is
treated as absent — `getTenders` with `userId = 0` or `category = ""` and
`getMarketplaceListings` with `userId = 0` return the same rows as the call
without the criterion — whereas the price bounds and boolean flags tested
against `undefined` are applied even at `0` / `false`. -/
theorem claim_C10_falsy_filters (tn : List TenderRow) (ls : List ListingRow)
    (cw : List CrewRow) (f : TenderFilters) (g : ListingFilters) :
    SQLiteStorage.getTenders tn (some { f with userId := some 0 })
      = SQLiteStorage.getTenders tn (some { f with userId := none }) ∧
    SQLiteStorage.getTenders tn (some { f with category := some "" })
      = SQLiteStorage.getTenders tn (some { f with category := none }) ∧
    SQLiteStorage.getMarketplaceListings ls (some { g with userId := some 0 })
      = SQLiteStorage.getMarketplaceListings ls (some { g with userId := none }) ∧
    SQLiteStorage.getMarketplaceListings ls (some { minPrice := some 0 })
      = (ls.filter (fun r => decide ((0 : Int) ≤ r.price))).map decodeListing ∧
    SQLiteStorage.getCrews cw (some { isVerified := some false })
      = cw.filter (fun c => c.isVerified == false) ∧
    SQLiteStorage.getCrews cw (some { isAvailable := some false })
      = cw.filter (fun c => c.isAvailable == false) := by
  refine ⟨?_, ?_, ?_, ?_, ?_, ?_⟩ <;>
    simp [SQLiteStorage.getTenders, tenderConditions, SQLiteStorage.getMarketplaceListings,
      listingConditions, SQLiteStorage.getCrews, crewConditions]

/-- C7: `getTenders` applies the logical AND of the supplied criteria and
omits absent ones: a supplied category matches only rows whose category is
exactly equal, a supplied search term matches exactly the rows whose title
OR description contains it as a substring, and a call with no filters
returns all rows. -/
theorem claim_C7_getTenders_filters (rows : List TenderRow) (c s : String)
    (hc : c ≠ "") (hs : s ≠ "") :
    SQLiteStorage.getTenders rows none = rows.map decodeTender ∧
    SQLiteStorage.getTenders rows (some { category := some c, searchTerm := some s })
      = (rows.filter (fun t => t.category == c &&
          (likeContains t.title s || likeContains t.description s))).map decodeTender := by
  constructor
  · rfl
  · simp [SQLiteStorage.getTenders, tenderConditions, hc, hs]

/-- Example tender row used by the concrete witnesses: category
`construction`, title containing `дом`, one required profession
`electrician` stored in serialized form. -/
def exTender : TenderRow :=
  { id := 1, userId := 7, title := "Построить дом", description := "кирпичный",
    category := "construction", location := "Москва", status := "open",
    personType := "individual",
    requiredProfessions := some "[\"electrician\"]", images := some "[]",
    budget := 100, viewCount := 0,
    createdAt := "2024-01-01T00:00:00.000Z", updatedAt := "2024-01-01T00:00:00.000Z" }

/-- A second example tender that matches neither the category nor the
search term of the witness call. -/
def exTender2 : TenderRow :=
  { exTender with
    id := 2, title := "Ремонт офиса", description := "покраска",
    category := "design", requiredProfessions := some "[\"painter\"]" }

/-- Closed witness for C7 on a concrete two-row table. -/
theorem claim_C7_getTenders_filters_witness :
    SQLiteStorage.getTenders [exTender, exTender2] none
      = [exTender, exTender2].map decodeTender ∧
    SQLiteStorage.getTenders [exTender, exTender2]
        (some { category := some "construction", searchTerm := some "дом" })
      = ([exTender, exTender2].filter (fun t => t.category == "construction" &&
          (likeContains t.title "дом" || likeContains t.description "дом"))).map decodeTender :=
  claim_C7_getTenders_filters [exTender, exTender2] "construction" "дом"
    (by decide) (by decide)

/-- C8: `getTendersByRequiredProfession` keeps exactly the tenders whose
decoded `requiredProfessions` list includes the profession as an exact
element, evaluated in memory over every row; a profession that is merely a
substring of a stored element (`electric` vs `electrician`) is not
matched, although the substring push-down filter of `getTenders` does
match it. -/
theorem claim_C8_profession_exact (rows : List TenderRow) (profession : String) :
    (SQLiteStorage.getTendersByRequiredProfession rows profession).map
        (fun d => d.row)
      = rows.filter
          (fun t => includesStr (JsonUtils.parseArray t.requiredProfessions) profession) ∧
    SQLiteStorage.getTendersByRequiredProfession [exTender] "electric" = [] ∧
    SQLiteStorage.getTenders [exTender]
        (some { requiredProfessions := some ["electric"] })
      = [decodeTender exTender] := by
  refine ⟨?_, by rfl, by rfl⟩
  simp [SQLiteStorage.getTendersByRequiredProfession, Function.comp_def]

/-- `UPDATE … WHERE p` followed by re-reading the row with the same
predicate returns the updated row, provided the update does not change
which rows the predicate selects. -/
theorem find?_map_update {α : Type} (p : α → Bool) (u : α → α)
    (hu : ∀ x, p (u x) = p x) :
    ∀ (l : List α) (b : α), l.find? p = some b →
      (l.map (fun x => if p x then u x else x)).find? p = some (u b) := by
  intro l
  induction l with
  | nil => intro b hb; simp at hb
  | cons a l ih =>
    intro b hb
    by_cases hpa : p a = true
    · rw [List.find?_cons_of_pos _ hpa] at hb
      injection hb with hb
      subst hb
      simp only [List.map_cons, if_pos hpa]
      exact List.find?_cons_of_pos _ (by rw [hu, hpa])
    · rw [List.find?_cons_of_neg _ (by simpa using hpa)] at hb
      simp only [List.map_cons, if_neg hpa]
      rw [List.find?_cons_of_neg _ (by simpa using hpa)]
      exact ih b hb

/-- `UPDATE … WHERE p` on a table with no matching row leaves the table
unchanged. -/
theorem map_update_id {α : Type} (p : α → Bool) (u : α → α) :
    ∀ l : List α, l.find? p = none →
      l.map (fun x => if p x then u x else x) = l := by
  intro l
  induction l with
  | nil => intro _; rfl
  | cons a l ih =>
    intro h
    by_cases hpa : p a = true
    · rw [List.find?_cons_of_pos _ hpa] at h; cases h
    · rw [List.find?_cons_of_neg _ (by simpa using hpa)] at h
      simp only [List.map_cons, if_neg hpa, ih h]

/-- C1: for an existing bid, `acceptTenderBid` returns the bid with its
`isAccepted` flag set, every tender row carrying the bid's `tenderId` ends
with status `in_progress`, and every bid row with the given id ends with
the flag set; for a missing bid it returns `none` and changes nothing.
The conclusions hold whether or not the bid was already accepted — the
flag stays `true` (idempotent) and the tender status write is re-applied
on a second call — and an already-accepted bid is returned unchanged. -/
theorem claim_C1_acceptTenderBid (db : DB) (bidId : Nat) :
    (db.tenderBids.find? (fun b => b.id == bidId) = none →
      SQLiteStorage.acceptTenderBid db bidId = (none, db)) ∧
    (∀ bid, db.tenderBids.find? (fun b => b.id == bidId) = some bid →
      (SQLiteStorage.acceptTenderBid db bidId).1 = some { bid with isAccepted := true } ∧
      (∀ t ∈ (SQLiteStorage.acceptTenderBid db bidId).2.tenders,
        t.id = bid.tenderId → t.status = "in_progress") ∧
      (∀ b ∈ (SQLiteStorage.acceptTenderBid db bidId).2.tenderBids,
        b.id = bidId → b.isAccepted = true) ∧
      (bid.isAccepted = true →
        (SQLiteStorage.acceptTenderBid db bidId).1 = some bid)) := by
  constructor
  · intro h
    unfold SQLiteStorage.acceptTenderBid
    rw [h]
  · intro bid hb
    have hres : (SQLiteStorage.acceptTenderBid db bidId).1
        = some { bid with isAccepted := true } := by
      unfold SQLiteStorage.acceptTenderBid
      rw [hb]
      exact find?_map_update (fun b => b.id == bidId)
        (fun b => { b with isAccepted := true }) (fun x => rfl) db.tenderBids bid hb
    refine ⟨hres, ?_, ?_, ?_⟩
    · intro t ht hid
      unfold SQLiteStorage.acceptTenderBid at ht
      rw [hb] at ht
      simp only at ht
      obtain ⟨t₀, _, rfl⟩ := List.mem_map.mp ht
      by_cases h0 : t₀.id == bid.tenderId
      · simp [h0]
      · rw [if_neg h0] at hid ⊢
        exact absurd (by simp [hid]) h0
    · intro b hbmem hbid
      unfold SQLiteStorage.acceptTenderBid at hbmem
      rw [hb] at hbmem
      simp only at hbmem
      obtain ⟨b₀, _, rfl⟩ := List.mem_map.mp hbmem
      by_cases h0 : b₀.id == bidId
      · simp [h0]
      · rw [if_neg h0] at hbid ⊢
        exact absurd (by simp [hbid]) h0
    · intro hacc
      rw [hres]
      cases bid
      simp_all

/-- Example user, bid and database for the concrete witnesses. -/
def exUser : UserRow :=
  { id := 7, username := "ivan", email := "ivan@example.com", fullName := "Иван Иванов",
    userType := "individual", location := some "Москва", bio := none, rating := 0,
    walletBalance := 0, createdAt := "2024-01-01T00:00:00.000Z",
    updatedAt := "2024-01-01T00:00:00.000Z" }

def exBid : BidRow :=
  { id := 5, tenderId := 1, userId := 9, amount := 50, description := "сделаю",
    isAccepted := false, createdAt := "2024-01-02T00:00:00.000Z" }

def exDB : DB :=
  { users := [exUser], tenders := [exTender], tenderBids := [exBid],
    marketplaceListings := [], reviews := [], deliveryOrders := [],
    estimateItems := [], crews := [] }

/-- Closed witness for C1: accepting bid 5 of the example database. -/
theorem claim_C1_acceptTenderBid_witness :
    (SQLiteStorage.acceptTenderBid exDB 5).1 = some { exBid with isAccepted := true } ∧
    (∀ t ∈ (SQLiteStorage.acceptTenderBid exDB 5).2.tenders,
      t.id = exBid.tenderId → t.status = "in_progress") ∧
    (∀ b ∈ (SQLiteStorage.acceptTenderBid exDB 5).2.tenderBids,
      b.id = 5 → b.isAccepted = true) ∧
    (exBid.isAccepted = true → (SQLiteStorage.acceptTenderBid exDB 5).1 = some exBid) :=
  (claim_C1_acceptTenderBid exDB 5).2 exBid rfl

/-- C3: an update on an existing record changes only the supplied fields
(plus `updatedAt` where the operation stamps it) and returns absent when
the id does not exist.  `updateDeliveryOrderStatus` rewrites exactly
`status` and `updatedAt` of the addressed row (every other field kept by
the record update) and leaves the table untouched when the id is absent;
`updateTender` rewrites exactly the supplied payload fields — every field
not named in the payload, `updatedAt` included, keeps its prior value —
and reports the absent id as an inner `none`. -/
theorem claim_C3_update_frame (db : DB) (now : String) (id : Nat) (st : String)
    (p : TenderPatch) :
    (db.deliveryOrders.find? (fun o => o.id == id) = none →
      SQLiteStorage.updateDeliveryOrderStatus db now id st = (none, db)) ∧
    (∀ o, db.deliveryOrders.find? (fun o => o.id == id) = some o →
      (SQLiteStorage.updateDeliveryOrderStatus db now id st).1
        = some { o with status := st, updatedAt := now }) ∧
    (tenderPatchIsEmpty p = false →
      db.tenders.find? (fun t => t.id == id) = none →
      SQLiteStorage.updateTender db id p = some (none, db)) ∧
    (∀ t, tenderPatchIsEmpty p = false →
      db.tenders.find? (fun t => t.id == id) = some t →
      (SQLiteStorage.updateTender db id p).map Prod.fst
          = some (some (decodeTender (applyTenderPatch t p))) ∧
        (p.title = none → (applyTenderPatch t p).title = t.title) ∧
        (p.description = none → (applyTenderPatch t p).description = t.description) ∧
        (p.category = none → (applyTenderPatch t p).category = t.category) ∧
        (p.location = none → (applyTenderPatch t p).location = t.location) ∧
        (p.status = none → (applyTenderPatch t p).status = t.status) ∧
        (p.personType = none → (applyTenderPatch t p).personType = t.personType) ∧
        (p.userId = none → (applyTenderPatch t p).userId = t.userId) ∧
        (p.budget = none → (applyTenderPatch t p).budget = t.budget) ∧
        (p.images = none → (applyTenderPatch t p).images = t.images) ∧
        (p.requiredProfessions = none →
          (applyTenderPatch t p).requiredProfessions = t.requiredProfessions) ∧
        (p.createdAt = none → (applyTenderPatch t p).createdAt = t.createdAt) ∧
        (p.updatedAt = none → (applyTenderPatch t p).updatedAt = t.updatedAt)) := by
  refine ⟨?_, ?_, ?_, ?_⟩
  · intro h
    unfold SQLiteStorage.updateDeliveryOrderStatus
    simp only [map_update_id (fun o => o.id == id)
      (fun o => { o with status := st, updatedAt := now }) db.deliveryOrders h, h]
  · intro o ho
    unfold SQLiteStorage.updateDeliveryOrderStatus
    simp only [find?_map_update (fun o => o.id == id)
      (fun o => { o with status := st, updatedAt := now }) (fun x => rfl)
      db.deliveryOrders o ho]
  · intro hemp h
    unfold SQLiteStorage.updateTender
    simp only [hemp, Bool.false_eq_true, if_false,
      map_update_id (fun t => t.id == id) (fun t => applyTenderPatch t p) db.tenders h, h]
  · intro t hemp ht
    constructor
    · unfold SQLiteStorage.updateTender
      simp only [hemp, Bool.false_eq_true, if_false,
        find?_map_update (fun t => t.id == id) (fun t => applyTenderPatch t p)
          (fun x => rfl) db.tenders t ht]
      rfl
    · refine ⟨?_, ?_, ?_, ?_, ?_, ?_, ?_, ?_, ?_, ?_, ?_, ?_⟩ <;>
        (intro hnone; simp [applyTenderPatch, hnone])

/-- Example delivery order for the C3 witness. -/
def exOrder : DeliveryOrderRow :=
  { id := 3, userId := 7, optionId := 1, status := "pending", trackingCode := none,
    address := "Москва, ул. Ленина 1", createdAt := "2024-01-01T00:00:00.000Z",
    updatedAt := "2024-01-01T00:00:00.000Z" }

def exDB3 : DB :=
  { users := [], tenders := [exTender], tenderBids := [],
    marketplaceListings := [], reviews := [], deliveryOrders := [exOrder],
    estimateItems := [], crews := [] }

/-- Closed witness for C3: a status-only update of order 3 and a
status-only tender patch on the example database. -/
theorem claim_C3_update_frame_witness :
    (SQLiteStorage.updateDeliveryOrderStatus exDB3 "2024-02-02T00:00:00.000Z" 3 "shipped").1
        = some { exOrder with status := "shipped", updatedAt := "2024-02-02T00:00:00.000Z" } ∧
    (SQLiteStorage.updateTender exDB3 1 { status := some "closed" }).map Prod.fst
        = some (some (decodeTender (applyTenderPatch exTender { status := some "closed" }))) ∧
    (applyTenderPatch exTender { status := some "closed" }).updatedAt = exTender.updatedAt :=
  ⟨((claim_C3_update_frame exDB3 "2024-02-02T00:00:00.000Z" 3 "shipped"
      { status := some "closed" }).2.1) exOrder rfl,
   (((claim_C3_update_frame exDB3 "2024-02-02T00:00:00.000Z" 1 "shipped"
      { status := some "closed" }).2.2.2) exTender rfl rfl).1,
   ((((claim_C3_update_frame exDB3 "2024-02-02T00:00:00.000Z" 1 "shipped"
      { status := some "closed" }).2.2.2) exTender rfl rfl).2.2.2.2.2.2.2.2.2.2.2.2) rfl⟩

/-- C2 counterexample: `updateTender` on an existing record neither stamps
`updatedAt` with the current instant (a status-only update leaves the old
value in place — the operation never consults the clock) nor discards a
caller-supplied `updatedAt` (the supplied value is written through to the
store verbatim), refuting the claim that every mutating update re-stamps
`updatedAt` server-side. -/
theorem claim_C2_counterexample :
    ((SQLiteStorage.updateTender exDB3 1 { status := some "closed" }).map
        (fun r => r.2.tenders.map (fun t => t.updatedAt)))
      = some ["2024-01-01T00:00:00.000Z"] ∧
    ((SQLiteStorage.updateTender exDB3 1
        { updatedAt := some "1999-09-09T00:00:00.000Z" }).map
        (fun r => r.2.tenders.map (fun t => t.updatedAt)))
      = some ["1999-09-09T00:00:00.000Z"] :=
  ⟨rfl, rfl⟩

/-- C2, amended: the operations that do stamp behave as claimed —
`updateUser` deletes a caller-supplied `updatedAt` from the payload (the
result is identical for any supplied value) and stamps the current instant
on the updated row, and `updateDeliveryOrderStatus` stamps the current
instant on its single-field status transition — but the claim does not
hold for every update operation: `updateTender` writes a caller-supplied
`updatedAt` through unchanged and keeps the old value when none is
supplied (see the counterexample; `updateUserDocument`,
`updateMarketplaceListing`, `updateEstimateItem`, `updateCrewMember`,
`updateCrewPortfolio`, `updateCrewMemberSkill` and `updateDeliveryOption`
likewise never stamp). -/
theorem claim_C2_amended (db : DB) (now : String) (id : Nat) (st : String)
    (p : UserPatch) (x : Option String)
    (hne : userPatchIsEmpty { p with updatedAt := none } = false) :
    SQLiteStorage.updateUser db now id { p with updatedAt := x }
        = SQLiteStorage.updateUser db now id p ∧
    (∀ u, db.users.find? (fun v => v.id == id) = some u →
      (SQLiteStorage.updateUser db now id p).map
          (fun r => r.1.map (fun v => v.updatedAt)) = some (some now)) ∧
    (∀ o, db.deliveryOrders.find? (fun v => v.id == id) = some o →
      (SQLiteStorage.updateDeliveryOrderStatus db now id st).1.map
          (fun v => v.updatedAt) = some now) ∧
    (∀ (t : TenderRow) (q : TenderPatch),
      (applyTenderPatch t q).updatedAt = q.updatedAt.getD t.updatedAt) := by
  refine ⟨rfl, ?_, ?_, fun t q => rfl⟩
  · intro u hu
    unfold SQLiteStorage.updateUser
    simp only [hne, Bool.false_eq_true, if_false,
      find?_map_update (fun v => v.id == id)
        (fun v => { applyUserPatch v { p with updatedAt := none } with updatedAt := now })
        (fun v => rfl) db.users u hu]
    rfl
  · intro o ho
    unfold SQLiteStorage.updateDeliveryOrderStatus
    simp only [find?_map_update (fun v => v.id == id)
      (fun v => { v with status := st, updatedAt := now }) (fun v => rfl)
      db.deliveryOrders o ho]
    rfl

/-- Example user patch for the C2 witness. -/
def exPatch : UserPatch := { fullName := some "Пётр Петров" }

/-- Closed witness for the amended C2 on the example database: a
caller-supplied `updatedAt` makes no difference to `updateUser`, the
updated user row carries the new instant, the status update of order 3
carries the new instant, and a status-only tender patch keeps the old
`updatedAt`. -/
theorem claim_C2_amended_witness :
    (SQLiteStorage.updateUser exDB "2024-03-03T00:00:00.000Z" 7
        { exPatch with updatedAt := some "1999-09-09T00:00:00.000Z" }
      = SQLiteStorage.updateUser exDB "2024-03-03T00:00:00.000Z" 7 exPatch) ∧
    ((SQLiteStorage.updateUser exDB "2024-03-03T00:00:00.000Z" 7 exPatch).map
        (fun r => r.1.map (fun v => v.updatedAt)) = some (some "2024-03-03T00:00:00.000Z")) ∧
    ((SQLiteStorage.updateDeliveryOrderStatus exDB3 "2024-03-03T00:00:00.000Z" 3 "shipped").1.map
        (fun v => v.updatedAt) = some "2024-03-03T00:00:00.000Z") ∧
    ((applyTenderPatch exTender { status := some "closed" }).updatedAt
        = ({ status := some "closed" } : TenderPatch).updatedAt.getD exTender.updatedAt) :=
  ⟨(claim_C2_amended exDB "2024-03-03T00:00:00.000Z" 7 "shipped" exPatch
      (some "1999-09-09T00:00:00.000Z") rfl).1,
   (claim_C2_amended exDB "2024-03-03T00:00:00.000Z" 7 "shipped" exPatch none rfl).2.1
      exUser rfl,
   (claim_C2_amended exDB3 "2024-03-03T00:00:00.000Z" 3 "shipped" exPatch none rfl).2.2.1
      exOrder rfl,
   (claim_C2_amended exDB3 "2024-03-03T00:00:00.000Z" 3 "shipped" exPatch none rfl).2.2.2
      exTender { status := some "closed" }⟩

/-- The aggregate persisted by `updateUserRating`: the rounded mean of the
ratings of all reviews addressed to the user (`Math.round(total / count)`). -/
def ratingAverage (db : DB) (userId : Nat) : Int :=
  jsRound ((db.reviews.filter (fun r => r.recipientId == userId)).map
      (fun r => r.rating)).sum
    (db.reviews.filter (fun r => r.recipientId == userId)).length

/-- C6: `updateUserRating` with zero reviews addressed to the user returns
0 and writes nothing; otherwise (for an existing user row) it returns the
rounded mean of all the user's review ratings and persists exactly that
value on the user row — with ratings [5,4,3] this is round(4.0) = 4 (see
the witness). -/
theorem claim_C6_updateUserRating (db : DB) (userId : Nat) :
    (db.reviews.filter (fun r => r.recipientId == userId) = [] →
      SQLiteStorage.updateUserRating db userId = some (0, db)) ∧
    (∀ u, db.users.find? (fun v => v.id == userId) = some u →
      db.reviews.filter (fun r => r.recipientId == userId) ≠ [] →
      (SQLiteStorage.updateUserRating db userId).map Prod.fst
          = some (ratingAverage db userId) ∧
      (SQLiteStorage.updateUserRating db userId).map
          (fun r => r.2.users.find? (fun v => v.id == userId))
        = some (some { u with rating := ratingAverage db userId })) := by
  constructor
  · intro h
    unfold SQLiteStorage.updateUserRating
    simp [h]
  · intro u hu hne
    have hlen : ((db.reviews.filter (fun r => r.recipientId == userId)).length == 0)
        = false := by
      simp only [beq_eq_false_iff_ne, ne_eq, List.length_eq_zero]
      exact hne
    unfold SQLiteStorage.updateUserRating
    simp only [hlen, Bool.false_eq_true, if_false]
    have hfind := find?_map_update (fun v => v.id == userId)
      (fun v => { v with rating := (jsRound
          ((db.reviews.filter (fun r => r.recipientId == userId)).map
            (fun r => r.rating)).sum
          ((db.reviews.filter (fun r => r.recipientId == userId)).length)) })
      (fun v => rfl) db.users u hu
    simp only [hfind, Option.map_some']
    exact ⟨rfl, rfl⟩

/-- Reviews [5,4,3] addressed to user 7, and the database for the C6
witness. -/
def exReviews : List ReviewRow :=
  [{ id := 1, authorId := 2, recipientId := 7, rating := 5, comment := "отлично" },
   { id := 2, authorId := 3, recipientId := 7, rating := 4, comment := "хорошо" },
   { id := 3, authorId := 4, recipientId := 7, rating := 3, comment := "нормально" }]

def exDB6 : DB :=
  { users := [exUser], tenders := [], tenderBids := [], marketplaceListings := [],
    reviews := exReviews, deliveryOrders := [], estimateItems := [], crews := [] }

/-- Closed witness for C6: user 7 of `exDB` has no reviews (result 0, no
write); user 7 of `exDB6` has ratings [5,4,3] and both receives and is
reported the rounded mean, which evaluates to 4. -/
theorem claim_C6_updateUserRating_witness :
    SQLiteStorage.updateUserRating exDB 7 = some (0, exDB) ∧
    (SQLiteStorage.updateUserRating exDB6 7).map Prod.fst
        = some (ratingAverage exDB6 7) ∧
    (SQLiteStorage.updateUserRating exDB6 7).map
        (fun r => r.2.users.find? (fun v => v.id == 7))
      = some (some { exUser with rating := ratingAverage exDB6 7 }) ∧
    ratingAverage exDB6 7 = 4 :=
  ⟨(claim_C6_updateUserRating exDB 7).1 rfl,
   ((claim_C6_updateUserRating exDB6 7).2 exUser rfl (by decide)).1,
   ((claim_C6_updateUserRating exDB6 7).2 exUser rfl (by decide)).2,
   by decide⟩
